import Mathlib

set_option maxRecDepth 100000

/-!
Verification development for the `sonos_controller_js` repository.

The definitions below are a shallow embedding of the JavaScript sources
`src/packages/sonos-controller/src/upnp.js` and
`src/packages/sonos-controller/src/sonos_home_controller.js`:
pure string-manipulation functions become Lean functions on `String` /
`List Char`, failure (a thrown `Error`) becomes `Except String`,
and the SOAP/network layer becomes an explicit environment of call
outcomes together with a trace of the speaker calls that were issued.
-/

/-- ASCII letter-or-digit test, mirroring the regex character class
`[a-zA-Z0-9]` used in `spotifyToSonosUri`. -/
def isAlnumAscii (c : Char) : Bool :=
  ('a' ≤ c && c ≤ 'z') || ('A' ≤ c && c ≤ 'Z') || ('0' ≤ c && c ≤ '9')

/-- Decision procedure for "`pat` occurs as a contiguous substring of `hay`",
mirroring JavaScript `hay.includes(pat)` (on lists of characters). -/
def listContainsSub (hay pat : List Char) : Bool :=
  match hay with
  | [] => pat.isEmpty
  | c :: t => pat.isPrefixOf (c :: t) || listContainsSub t pat

/-- JavaScript `hay.includes(pat)`. -/
def jsIncludes (hay pat : String) : Bool :=
  listContainsSub hay.toList pat.toList

/-- One global single-character replacement pass, i.e.
`String.prototype.replace` with a single-character global regex. -/
def replaceChar (c : Char) (rep : List Char) (l : List Char) : List Char :=
  l.flatMap (fun x => if x = c then rep else [x])

/-- `escapeXml` from `upnp.js`: five sequential global replacement passes,
`&` first, then `<`, `>`, `"`, `'`. -/
def escapeXmlL (l : List Char) : List Char :=
  replaceChar '\'' "&apos;".toList
    (replaceChar '"' "&quot;".toList
      (replaceChar '>' "&gt;".toList
        (replaceChar '<' "&lt;".toList
          (replaceChar '&' "&amp;".toList l))))

/-- `escapeXml` from `upnp.js`, on `String`. -/
def escapeXml (s : String) : String := String.mk (escapeXmlL s.toList)

/-- Modelled from the spec: the intended per-character entity substitution
("rewrite `&`, `<`, `>`, `"`, `'` to their entity forms, applied once per
original special character"). Used to compare the sequential implementation
against the spec's description. -/
def xmlEntity (c : Char) : List Char :=
  if c = '&' then "&amp;".toList
  else if c = '<' then "&lt;".toList
  else if c = '>' then "&gt;".toList
  else if c = '"' then "&quot;".toList
  else if c = '\'' then "&apos;".toList
  else [c]

/-- Uppercase hexadecimal digit, as produced by `encodeURIComponent`. -/
def hexDigit (n : Nat) : Char :=
  if n < 10 then Char.ofNat ('0'.toNat + n) else Char.ofNat ('A'.toNat + (n - 10))

/-- UTF-8 bytes of a character (as natural numbers below 256). -/
def utf8Bytes (c : Char) : List Nat :=
  let n := c.toNat
  if n < 128 then [n]
  else if n < 2048 then [192 + n / 64, 128 + n % 64]
  else if n < 65536 then [224 + n / 4096, 128 + (n / 64) % 64, 128 + n % 64]
  else [240 + n / 262144, 128 + (n / 4096) % 64, 128 + (n / 64) % 64, 128 + n % 64]

/-- Characters that JavaScript's `encodeURIComponent` leaves unescaped. -/
def isUriUnreserved (c : Char) : Bool :=
  isAlnumAscii c || ['-', '_', '.', '!', '~', '*', '\'', '(', ')'].contains c

/-- `encodeURIComponent` on one character: unreserved characters pass through,
every other character becomes the percent-encoding of its UTF-8 bytes. -/
def encodeChar (c : Char) : List Char :=
  if isUriUnreserved c then [c]
  else (utf8Bytes c).flatMap (fun b => ['%', hexDigit (b / 16), hexDigit (b % 16)])

/-- JavaScript `encodeURIComponent`. -/
def encodeURIComponent (s : String) : String :=
  String.mk (s.toList.flatMap encodeChar)

/-- The literal part `spotify:track:` of the regex in `spotifyToSonosUri`. -/
def trackNeedle : List Char := "spotify:track:".toList

/-- Attempt to match the regex `spotify:track:([a-zA-Z0-9]+)` at the head of
the list: the literal must be present followed by at least one alphanumeric
character, and the capture is the maximal alphanumeric run (greedy `+`). -/
def matchTrackAt (l : List Char) : Option (List Char) :=
  if trackNeedle.isPrefixOf l then
    let idChars := (l.drop trackNeedle.length).takeWhile isAlnumAscii
    if idChars.isEmpty then none else some idChars
  else none

/-- The unanchored regex search `str.match(/spotify:track:([a-zA-Z0-9]+)/)`:
try every position left to right and return the first capture group. -/
def findTrackMatch : List Char → Option (List Char)
  | [] => none
  | c :: t =>
    match matchTrackAt (c :: t) with
    | some idChars => some idChars
    | none => findTrackMatch t

/-- `spotifyToSonosUri` from `upnp.js`; a thrown `Error` is modelled as
`Except.error` carrying the error message. -/
def spotifyToSonosUri (spotifyUri : String) : Except String String :=
  match findTrackMatch spotifyUri.toList with
  | none => .error ("Invalid Spotify URI format: " ++ spotifyUri)
  | some idChars =>
    .ok ("x-sonos-spotify:" ++ encodeURIComponent ("spotify:track:" ++ String.mk idChars)
      ++ "?sid=12&flags=8224&sn=7")

/-- `spotifyToSonosRadioUri` from `upnp.js`: same unanchored validation, but
the reference is re-encoded with `trackradio` in place of `track`. -/
def spotifyToSonosRadioUri (spotifyUri : String) : Except String String :=
  match findTrackMatch spotifyUri.toList with
  | none => .error ("Invalid Spotify URI format: " ++ spotifyUri)
  | some idChars =>
    .ok ("x-sonos-spotify:" ++ encodeURIComponent ("spotify:trackradio:" ++ String.mk idChars)
      ++ "?sid=12&flags=8224&sn=7")

/-- Modelled from the spec: the exact-shape test "the reference matches the
exact pattern `service:track:<id>` (case-sensitive literal prefix, non-empty
alphanumeric id)" — the whole string is the literal prefix followed by the id,
with nothing before or after. -/
def isExactTrackRef (s : String) : Bool :=
  trackNeedle.isPrefixOf s.toList
    && !(s.toList.drop trackNeedle.length).isEmpty
    && (s.toList.drop trackNeedle.length).all isAlnumAscii

/-- Whether the regex `spotify:track:([a-zA-Z0-9]+)` matches anywhere in `s`
(the code performs an unanchored search, so this is the acceptance set). -/
def containsTrackPattern (s : String) : Bool :=
  s.toList.tails.any (fun t => (matchTrackAt t).isSome)

/-- JavaScript `toLowerCase` (ASCII range; all inputs of interest are ASCII). -/
def jsLower (s : String) : String := String.mk (s.toList.map Char.toLower)

/-- JavaScript `trim`: remove leading and trailing whitespace. -/
def jsTrim (s : String) : String :=
  String.mk (((s.toList.dropWhile Char.isWhitespace).reverse.dropWhile
    Char.isWhitespace).reverse)

/-- The normalisation `(x || '').toLowerCase().trim()` used on the three query
arguments of `rankSearchResults` (an absent argument behaves as `''`). -/
def normalizeQS (o : Option String) : String := jsTrim (jsLower (o.getD ""))

/-- JavaScript `replace(/\s+/g, '')`: strip all whitespace. -/
def stripWs (s : String) : String :=
  String.mk (s.toList.filter (fun c => !c.isWhitespace))

/-- One step of the right-to-left scan implementing `split(/\s+/)`: the flag
records whether the character just to the right was whitespace, so that a run
of whitespace creates only one boundary. -/
def splitWsStep (c : Char) (st : Bool × List (List Char)) : Bool × List (List Char) :=
  if c.isWhitespace then
    if st.1 then st else (true, [] :: st.2)
  else
    match st.2 with
    | [] => (false, [[c]])
    | p :: rest => (false, (c :: p) :: rest)

/-- JavaScript `s.split(/\s+/)`: pieces between maximal whitespace runs,
including an empty leading piece when the string starts with whitespace and an
empty trailing piece when it ends with whitespace; `"".split` gives `[""]`. -/
def jsSplitWs (s : String) : List String :=
  ((s.toList.foldr splitWsStep (false, [[]])).2).map String.mk

/-- Per-query-word credit of the word-overlap loop in `rankSearchResults`:
1 for a (bidirectional substring) match against a track-name word, otherwise
0.5 for a match against a word of "artist track", otherwise 0. -/
def wordsMatchOne (trackWords fullWords : List String) (qWord : String) : ℚ :=
  if trackWords.any (fun tW => jsIncludes tW qWord || jsIncludes qWord tW) then 1
  else if fullWords.any (fun fW => jsIncludes fW qWord || jsIncludes qWord fW) then 1/2
  else 0

/-- An artist record of a Spotify search candidate (only the name is used). -/
structure SpotifyArtist where
  name : String
deriving DecidableEq

/-- Album data of a Spotify search candidate, as used by `searchAndPlay`
(`album?.name`, `album?.images?.[0]?.url`). -/
structure SpotifyAlbum where
  name : String
  images : List String
deriving DecidableEq

/-- A Spotify search candidate as consumed by `rankSearchResults` and
`searchAndPlay`. -/
structure Track where
  name : String
  artists : List SpotifyArtist
  popularity : Option ℚ
  uri : String
  album : Option SpotifyAlbum
deriving DecidableEq

/-- A candidate record extended with the attached relevance score, i.e. the
fresh object `{ ...t, relevanceScore: score }` built by the ranker. -/
structure RankedTrack where
  track : Track
  relevanceScore : ℚ
deriving DecidableEq

/-- The `+40` term of the ranker: `if (normalizedQuery.includes(trackName))`.
Note the direction: the code tests whether the (lower-cased) track name occurs
inside the query, not the other way round. -/
def queryContainsTrackBonus (normalizedQuery trackName : String) : ℚ :=
  if jsIncludes normalizedQuery trackName then 40 else 0

/-- The score computed for one candidate by `rankSearchResults`
(`sonos_home_controller.js`, lines 280–348), translated term by term. -/
def scoreOf (t : Track) (query artist track : Option String) : ℚ :=
  let nq := normalizeQS query
  let na := normalizeQS artist
  let nt := normalizeQS track
  let trackName := jsLower t.name
  let artistNames := t.artists.map (fun a => jsLower a.name)
  let primaryArtist := artistNames.headD ""
  let base := t.popularity.getD 0
  let s1 := base + (if nt ≠ "" ∧ trackName = nt then 100
    else if nt ≠ "" ∧ jsIncludes trackName nt then 50 else 0)
  let s2 := s1 + (if na ≠ "" ∧ artistNames.contains na then 100
    else if na ≠ "" ∧ artistNames.any (fun a => jsIncludes a na) then 50 else 0)
  if nq ≠ "" then
    let fullTrackString := jsLower (primaryArtist ++ " " ++ trackName)
    let s3 := s2 + (if jsIncludes fullTrackString nq then 30 else 0)
    let s4 := s3 + queryContainsTrackBonus nq trackName
    let queryWords := (jsSplitWs nq).filter (fun w => w.length > 2)
    let trackWords := jsSplitWs trackName
    let fullWords := jsSplitWs (primaryArtist ++ " " ++ trackName)
    let m := (queryWords.map (wordsMatchOne trackWords fullWords)).sum
    let s5 := s4 + (if m > 0 then m * 25 else 0)
    let nqNoSp := stripWs nq
    let tnNoSp := stripWs trackName
    let fullNoSp := stripWs (primaryArtist ++ trackName)
    let s6 := s5 + (if tnNoSp = nqNoSp then 80
      else if jsIncludes tnNoSp nqNoSp then 50 else 0)
    s6 + (if jsIncludes fullNoSp nqNoSp then 40 else 0)
  else s2

/-- Modelled from the spec (statement apparatus for C1): the candidate score
with the single `+40` "query contains track name" term omitted and every other
term exactly as in `scoreOf`. Comparing `scoreOf` against this definition
isolates the `+40` bonus. -/
def scoreOmittingQueryContainsBonus (t : Track) (query artist track : Option String) : ℚ :=
  let nq := normalizeQS query
  let na := normalizeQS artist
  let nt := normalizeQS track
  let trackName := jsLower t.name
  let artistNames := t.artists.map (fun a => jsLower a.name)
  let primaryArtist := artistNames.headD ""
  let base := t.popularity.getD 0
  let s1 := base + (if nt ≠ "" ∧ trackName = nt then 100
    else if nt ≠ "" ∧ jsIncludes trackName nt then 50 else 0)
  let s2 := s1 + (if na ≠ "" ∧ artistNames.contains na then 100
    else if na ≠ "" ∧ artistNames.any (fun a => jsIncludes a na) then 50 else 0)
  if nq ≠ "" then
    let fullTrackString := jsLower (primaryArtist ++ " " ++ trackName)
    let s3 := s2 + (if jsIncludes fullTrackString nq then 30 else 0)
    let queryWords := (jsSplitWs nq).filter (fun w => w.length > 2)
    let trackWords := jsSplitWs trackName
    let fullWords := jsSplitWs (primaryArtist ++ " " ++ trackName)
    let m := (queryWords.map (wordsMatchOne trackWords fullWords)).sum
    let s5 := s3 + (if m > 0 then m * 25 else 0)
    let nqNoSp := stripWs nq
    let tnNoSp := stripWs trackName
    let fullNoSp := stripWs (primaryArtist ++ trackName)
    let s6 := s5 + (if tnNoSp = nqNoSp then 80
      else if jsIncludes tnNoSp nqNoSp then 50 else 0)
    s6 + (if jsIncludes fullNoSp nqNoSp then 40 else 0)
  else s2

/-- The comparator `(a, b) => b.relevanceScore - a.relevanceScore` passed to
the (stable, per ES2019) `Array.prototype.sort`: `a` stays before `b` exactly
when the comparator is non-positive, i.e. when `b.score ≤ a.score`. -/
def rankLE (x y : RankedTrack) : Bool :=
  decide (y.relevanceScore ≤ x.relevanceScore)

/-- `rankSearchResults` from `sonos_home_controller.js`: map each candidate to
a fresh scored record, then sort descending by score with a stable sort. -/
def rankSearchResults (tracks : List Track) (query artist track : Option String) :
    List RankedTrack :=
  (tracks.map (fun t => ⟨t, scoreOf t query artist track⟩)).mergeSort rankLE

/-- The `trackInfo` argument of `buildSpotifyMetadata` (and of the play
functions): every field may be absent (`undefined`). -/
structure TrackInfo where
  title : Option String
  artist : Option String
  album : Option String
  albumArtUri : Option String
  trackId : Option String
deriving DecidableEq

/-- The empty metadata object `{}`. -/
def emptyTrackInfo : TrackInfo := ⟨none, none, none, none, none⟩

/-- The fixed part of the DIDL-Lite template before the `<dc:title>` element
(parameterised by the raw, unescaped track id interpolated into the item id). -/
def didlPre (trackId : String) : String :=
  "<DIDL-Lite xmlns:dc=\"http://purl.org/dc/elements/1.1/\" xmlns:upnp=\"urn:schemas-upnp-org:metadata-1-0/upnp/\" xmlns:r=\"urn:schemas-rinconnetworks-com:metadata-1-0/\" xmlns=\"urn:schemas-upnp-org:metadata-1-0/DIDL-Lite/\">\n  <item id=\"00032020spotify%3atrack%3a"
    ++ trackId ++ "\" parentID=\"\" restricted=\"true\">\n    "

/-- The part of the DIDL-Lite template after the closing `</dc:title>`. -/
def didlPost (artist album albumArtUri resourceUri : String) : String :=
  "\n    <upnp:class>object.item.audioItem.musicTrack</upnp:class>\n    <dc:creator>"
    ++ escapeXml artist ++ "</dc:creator>\n    <upnp:album>" ++ escapeXml album
    ++ "</upnp:album>\n    "
    ++ (if albumArtUri ≠ "" then
          "<upnp:albumArtURI>" ++ escapeXml albumArtUri ++ "</upnp:albumArtURI>"
        else "")
    ++ "\n    <res protocolInfo=\"sonos.com-spotify:*:audio/x-spotify:*\">"
    ++ escapeXml resourceUri ++ "</res>\n  </item>\n</DIDL-Lite>"

/-- `buildSpotifyMetadata` from `upnp.js`: destructuring defaults for absent
fields, conditional resource URI (hard-coded lowercase `%3a` here, unlike
`encodeURIComponent`), conditional album-art element, and XML-escaping of
every free-text substitution. The output string is the source's template
literal, written as a concatenation of its pieces. -/
def buildSpotifyMetadata (trackInfo : TrackInfo) : String :=
  let title := trackInfo.title.getD "Unknown Track"
  let artist := trackInfo.artist.getD "Unknown Artist"
  let album := trackInfo.album.getD "Unknown Album"
  let albumArtUri := trackInfo.albumArtUri.getD ""
  let trackId := trackInfo.trackId.getD ""
  let resourceUri := if trackId ≠ "" then
      "x-sonos-spotify:spotify%3atrack%3a" ++ trackId ++ "?sid=12&flags=8224&sn=7"
    else ""
  didlPre trackId ++ "<dc:title>" ++ escapeXml title ++ "</dc:title>"
    ++ didlPost artist album albumArtUri resourceUri

/-- The tag-name part of a tag body (up to the first space). -/
def xmlTagName (tag : List Char) : String :=
  String.mk (tag.takeWhile (fun c => c ≠ ' '))

/-- Modelled from the spec ("well-formed XML"): a fuel-driven scanner that
checks that every `<name ...>` opening tag is closed by a matching `</name>`
(self-closing `<.../>` and declarations `<?...>` are allowed and skipped),
with properly terminated tags and a finally empty tag stack. -/
def xmlScan (fuel : Nat) (l : List Char) (stack : List String) : Bool :=
  match fuel with
  | 0 => false
  | fuel' + 1 =>
    match l with
    | [] => stack.isEmpty
    | '<' :: rest =>
      let tag := rest.takeWhile (fun c => c ≠ '>')
      match rest.dropWhile (fun c => c ≠ '>') with
      | '>' :: rest2 =>
        if tag.isEmpty then false
        else if tag.head? = some '/' then
          match stack with
          | top :: st =>
            if top = String.mk (tag.drop 1) then xmlScan fuel' rest2 st else false
          | [] => false
        else if tag.getLast? = some '/' then xmlScan fuel' rest2 stack
        else if tag.head? = some '?' then xmlScan fuel' rest2 stack
        else xmlScan fuel' rest2 (xmlTagName tag :: stack)
      | _ => false
    | _ :: rest => xmlScan fuel' rest stack

/-- Modelled from the spec: well-formedness of an XML document (balanced,
properly nested, properly terminated tags). -/
def xmlWellFormed (s : String) : Bool := xmlScan (s.length + 1) s.toList []

/-- The document's outermost element is `DIDL-Lite`. -/
def hasRootDIDL (s : String) : Bool :=
  "<DIDL-Lite ".toList.isPrefixOf s.toList
    && "</DIDL-Lite>".toList.isSuffixOf s.toList

/-- JavaScript template-literal interpolation of a possibly-undefined value:
`undefined` prints as the string "undefined". -/
def jsInterpOpt (o : Option String) : String := o.getD "undefined"

/-- The title built for the radio phase of `playSpotifyTrackWithRadio`:
`` `${trackInfo.title} Radio` ``. -/
def radioTitle (info : TrackInfo) : String := jsInterpOpt info.title ++ " Radio"

/-- Split on a separator character, JavaScript `split(sep)` (the accumulator
holds the current piece reversed). -/
def splitCharAux (sep : Char) : List Char → List Char → List String
  | [], acc => [String.mk acc.reverse]
  | c :: rest, acc =>
    if c = sep then String.mk acc.reverse :: splitCharAux sep rest []
    else splitCharAux sep rest (c :: acc)

/-- JavaScript `s.split(sep)` for a single-character separator. -/
def jsSplitChar (sep : Char) (s : String) : List String :=
  splitCharAux sep s.toList []

/-- `spotifyUri.split(':')[2]`: the third `:`-separated component, absent when
the URI has fewer than three components. -/
def uriTrackId (uri : String) : Option String := (jsSplitChar ':' uri).get? 2

/-- The metadata object built for the radio phase:
`{ ...trackInfo, trackId, title: `${trackInfo.title} Radio` }`. -/
def radioTrackInfo (uri : String) (info : TrackInfo) : TrackInfo :=
  { info with trackId := uriTrackId uri, title := some (radioTitle info) }

/-- The DIDL-Lite display document built for the radio phase. -/
def radioMetadata (uri : String) (info : TrackInfo) : String :=
  buildSpotifyMetadata (radioTrackInfo uri info)

/-- A concrete search candidate used in counterexamples and witnesses. -/
def museStarlight : Track :=
  ⟨"Starlight", [⟨"Muse"⟩], some 70, "spotify:track:starlightid", none⟩

/-- JavaScript `a || b` on a possibly-absent string (`''` is falsy). -/
def jsOr (a : Option String) (b : String) : String :=
  match a with
  | some s => if s = "" then b else s
  | none => b

/-- A SOAP call issued to the speaker (the observable speaker side effects of
the orchestration layer): `SetVolume`, `SetAVTransportURI` (with its
URI/metadata payload) and `Play`. -/
inductive SpeakerCall where
  | setVolume (volume : Int)
  | setAV (uri : String) (metadata : String)
  | play
deriving DecidableEq

/-- Whether a speaker call is a `SetVolume` command. -/
def isSetVolumeCall : SpeakerCall → Bool
  | .setVolume _ => true
  | _ => false

/-- Whether a speaker call is a `SetAVTransportURI` (track-load) command. -/
def isSetAVCall : SpeakerCall → Bool
  | .setAV _ _ => true
  | _ => false

/-- Outcomes assigned by the environment to the network-dependent
collaborators: one outcome per SOAP call site of the orchestration functions,
plus the outcome of the Spotify search request. -/
structure Env where
  setVolumeR : Except String Unit
  setAVTrackR : Except String Unit
  play1R : Except String Unit
  setAVRadioR : Except String Unit
  play2R : Except String Unit
  searchR : Except String (List Track)

/-- `setAVTransportURI` from `upnp.js`: converts the Spotify URI (a thrown
conversion error propagates before any SOAP request is sent), builds the
display metadata with `trackId: spotifyUri.split(':')[2]`, then issues the
`SetAVTransportURI` SOAP call whose outcome the environment supplies. -/
def setAVTransportURIStep (soapR : Except String Unit) (spotifyUri : String)
    (trackInfo : TrackInfo) : Except String Unit × List SpeakerCall :=
  match spotifyToSonosUri spotifyUri with
  | .error e => (.error e, [])
  | .ok sonosUri =>
    let metadata := buildSpotifyMetadata { trackInfo with trackId := uriTrackId spotifyUri }
    (soapR, [SpeakerCall.setAV sonosUri metadata])

/-- The pair returned by the orchestration functions: the structured result
(`{success, error?}`) of the resolved promise. -/
structure PlayOutcome where
  success : Bool
  error : Option String
deriving DecidableEq

/-- `playSpotifyTrack` from `upnp.js`: optional volume step, load, play, with
the whole sequence inside `try`/`catch`; the first failure aborts the sequence
and becomes the structured `{success: false, error}` result. The second
component is the trace of speaker calls issued (a failed SOAP call was still
issued). -/
def playSpotifyTrack (env : Env) (spotifyUri : String) (trackInfo : TrackInfo)
    (volume : Option Int) : PlayOutcome × List SpeakerCall :=
  let volPart : Except String Unit × List SpeakerCall :=
    match volume with
    | none => (.ok (), [])
    | some v => (env.setVolumeR, [SpeakerCall.setVolume v])
  match volPart with
  | (.error e, calls) => (⟨false, some e⟩, calls)
  | (.ok _, calls) =>
    match setAVTransportURIStep env.setAVTrackR spotifyUri trackInfo with
    | (.error e, calls2) => (⟨false, some e⟩, calls ++ calls2)
    | (.ok _, calls2) =>
      match env.play1R with
      | .error e => (⟨false, some e⟩, calls ++ calls2 ++ [SpeakerCall.play])
      | .ok _ => (⟨true, none⟩, calls ++ calls2 ++ [SpeakerCall.play])

/-- `playSpotifyTrackWithRadio` from `upnp.js`: the `playSpotifyTrack`
sequence, then (after the settling delay, not modelled) the radio-URI
conversion, a second `SetAVTransportURI` with the radio metadata, and a second
`Play`; everything inside one `try`/`catch`. -/
def playSpotifyTrackWithRadio (env : Env) (spotifyUri : String) (trackInfo : TrackInfo)
    (volume : Option Int) : PlayOutcome × List SpeakerCall :=
  let volPart : Except String Unit × List SpeakerCall :=
    match volume with
    | none => (.ok (), [])
    | some v => (env.setVolumeR, [SpeakerCall.setVolume v])
  match volPart with
  | (.error e, calls) => (⟨false, some e⟩, calls)
  | (.ok _, calls) =>
    match setAVTransportURIStep env.setAVTrackR spotifyUri trackInfo with
    | (.error e, calls2) => (⟨false, some e⟩, calls ++ calls2)
    | (.ok _, calls2) =>
      match env.play1R with
      | .error e => (⟨false, some e⟩, calls ++ calls2 ++ [SpeakerCall.play])
      | .ok _ =>
        match spotifyToSonosRadioUri spotifyUri with
        | .error e => (⟨false, some e⟩, calls ++ calls2 ++ [SpeakerCall.play])
        | .ok radioUri =>
          match env.setAVRadioR with
          | .error e => (⟨false, some e⟩, calls ++ calls2 ++ [SpeakerCall.play,
              SpeakerCall.setAV radioUri (radioMetadata spotifyUri trackInfo)])
          | .ok _ =>
            match env.play2R with
            | .error e => (⟨false, some e⟩, calls ++ calls2 ++ [SpeakerCall.play,
                SpeakerCall.setAV radioUri (radioMetadata spotifyUri trackInfo),
                SpeakerCall.play])
            | .ok _ => (⟨true, none⟩, calls ++ calls2 ++ [SpeakerCall.play,
                SpeakerCall.setAV radioUri (radioMetadata spotifyUri trackInfo),
                SpeakerCall.play])

/-- `playSpotifyTrackOnSonos` from `sonos_home_controller.js`: pauses Spotify
(which never rejects and issues no speaker call), then delegates to
`upnp.playSpotifyTrack` with normalised metadata and the hard-coded volume 30,
passing the structured result through. -/
def playSpotifyTrackOnSonos (env : Env) (trackUri : String)
    (name artistName : String) (albumName imageUrl : Option String) :
    PlayOutcome × List SpeakerCall :=
  playSpotifyTrack env trackUri
    ⟨some (if name = "" then "Unknown Track" else name),
     some (if artistName = "" then "Unknown Artist" else artistName),
     some (jsOr albumName "Unknown Album"),
     some (jsOr imageUrl ""),
     none⟩
    (some 30)

/-- The JavaScript `TypeError` message raised by `artists[0].name` when the
artist list is empty. -/
def jsUndefinedNameError : String := "Cannot read properties of undefined (reading 'name')"

/-- The search query string built by `searchSpotify` from the free-form query
and the structured artist/track filters. -/
def buildSearchQuery (q artist track : Option String) : String :=
  if artist.getD "" ≠ "" ∧ track.getD "" ≠ "" then
    "artist:" ++ artist.getD "" ++ " track:" ++ track.getD ""
  else if artist.getD "" ≠ "" then "artist:" ++ artist.getD ""
  else if track.getD "" ≠ "" then "track:" ++ track.getD ""
  else q.getD ""

/-- The value resolved by `searchSpotify`: the ranked candidate list and the
top-ranked best match. -/
structure SearchOutcome where
  tracks : List RankedTrack
  bestMatch : Option RankedTrack

/-- `searchSpotify` from `sonos_home_controller.js`: empty query short-circuits
to an empty result without touching the search collaborator; a collaborator
error propagates (is rethrown after the 401-refresh path, which is external to
this core); an empty candidate list gives an empty result; otherwise the
candidates are ranked and the top one is the best match (the logging line
`rankedTracks[0].artists[0].name` throws a `TypeError`, rethrown by the catch,
when the top candidate has no artists). -/
def searchSpotify (env : Env) (q artist track : Option String) :
    Except String SearchOutcome :=
  let searchQuery := buildSearchQuery q artist track
  if jsTrim searchQuery = "" then .ok ⟨[], none⟩
  else
    match env.searchR with
    | .error e => .error e
    | .ok tracks =>
      if tracks.isEmpty then .ok ⟨[], none⟩
      else
        let ranked := rankSearchResults tracks q artist track
        match ranked.head? with
        | none => .ok ⟨[], none⟩
        | some best =>
          if best.track.artists.isEmpty then .error jsUndefinedNameError
          else .ok ⟨ranked, some best⟩

/-- The `query: {q, artist, track}` echo attached to failure results of
`searchAndPlay`. -/
structure QueryEcho where
  q : Option String
  artist : Option String
  track : Option String
deriving DecidableEq

/-- The structured result of `searchAndPlay` (the fields the claims are
about; the success-path `track`/`alternatives` payload is omitted). -/
structure SearchPlayResult where
  success : Bool
  error : Option String
  query : Option QueryEcho
deriving DecidableEq

/-- `searchAndPlay` from `sonos_home_controller.js`: search, pick the best
match, and play it in radio or plain mode; every dependency failure is caught
and becomes a `{success: false, error, query}` result; the play result's
success flag and error message are passed through. -/
def searchAndPlay (env : Env) (query artist track : Option String) (radio : Bool) :
    SearchPlayResult × List SpeakerCall :=
  match searchSpotify env query artist track with
  | .error e => (⟨false, some e, some ⟨query, artist, track⟩⟩, [])
  | .ok sr =>
    match sr.bestMatch with
    | none => (⟨false, some "No matching tracks found", some ⟨query, artist, track⟩⟩, [])
    | some best =>
      match best.track.artists with
      | [] => (⟨false, some jsUndefinedNameError, some ⟨query, artist, track⟩⟩, [])
      | primary :: _tail =>
        let playRes :=
          if radio then
            playSpotifyTrackWithRadio env best.track.uri
              ⟨some best.track.name, some primary.name,
               best.track.album.map SpotifyAlbum.name,
               best.track.album.bind (fun al => al.images.head?), none⟩ none
          else
            playSpotifyTrackOnSonos env best.track.uri best.track.name primary.name
              (best.track.album.map SpotifyAlbum.name)
              (best.track.album.bind (fun al => al.images.head?))
        (⟨playRes.1.success, playRes.1.error, none⟩, playRes.2)

/-- Modelled from the spec (statement apparatus for C4): the message of the
first failing step of a step list. -/
def firstError : List (Except String Unit) → Option String
  | [] => none
  | .ok _ :: rest => firstError rest
  | .error e :: _ => some e

/-- Modelled from the spec (statement apparatus for C4): the structured
result demanded by the propagation policy — `{success: true}` when no step
fails, `{success: false, error: message of the first failing step}`
otherwise. -/
def specResult (firstFailureMsg : Option String) : PlayOutcome :=
  match firstFailureMsg with
  | none => ⟨true, none⟩
  | some m => ⟨false, some m⟩

/-- The dependency steps of `playTrack` in execution order: optional
`SetVolume`, URI conversion, `SetAVTransportURI`, `Play`. -/
def playTrackSteps (env : Env) (uri : String) (vol : Option Int) :
    List (Except String Unit) :=
  (match vol with
    | none => []
    | some _ => [env.setVolumeR])
    ++ [(spotifyToSonosUri uri).map (fun _ => ()), env.setAVTrackR, env.play1R]

/-- The dependency steps of `playTrackWithContinuousMode` in execution order:
those of `playTrack`, then the radio conversion, the radio
`SetAVTransportURI` and the second `Play`. -/
def radioSteps (env : Env) (uri : String) (vol : Option Int) :
    List (Except String Unit) :=
  playTrackSteps env uri vol
    ++ [(spotifyToSonosRadioUri uri).map (fun _ => ()), env.setAVRadioR, env.play2R]

/-- Modelled from the spec (statement apparatus for C4): the expected
structured result of `searchAndPlay` under the propagation policy. -/
def specSearchAndPlay (env : Env) (q a tr : Option String) (radio : Bool) :
    SearchPlayResult :=
  match searchSpotify env q a tr with
  | .error e => ⟨false, some e, some ⟨q, a, tr⟩⟩
  | .ok sr =>
    match sr.bestMatch with
    | none => ⟨false, some "No matching tracks found", some ⟨q, a, tr⟩⟩
    | some best =>
      match best.track.artists with
      | [] => ⟨false, some jsUndefinedNameError, some ⟨q, a, tr⟩⟩
      | _ :: _ =>
        match firstError (if radio then radioSteps env best.track.uri none
            else playTrackSteps env best.track.uri (some 30)) with
        | none => ⟨true, none, none⟩
        | some m => ⟨false, some m, none⟩

/-- An environment in which every speaker call succeeds and the search returns
no candidates. -/
def envNoMatch : Env := ⟨.ok (), .ok (), .ok (), .ok (), .ok (), .ok []⟩

/-- An environment in which every speaker call succeeds and the search returns
the single candidate `museStarlight`. -/
def envOneTrack : Env := ⟨.ok (), .ok (), .ok (), .ok (), .ok (), .ok [museStarlight]⟩

theorem replaceChar_append (c : Char) (rep : List Char) (a b : List Char) :
    replaceChar c rep (a ++ b) = replaceChar c rep a ++ replaceChar c rep b := by
  simp [replaceChar]

theorem escapeXmlL_append (a b : List Char) :
    escapeXmlL (a ++ b) = escapeXmlL a ++ escapeXmlL b := by
  simp [escapeXmlL, replaceChar_append]

theorem escapeXmlL_single (x : Char) : escapeXmlL [x] = xmlEntity x := by
  by_cases h1 : x = '&'
  · subst h1; decide
  by_cases h2 : x = '<'
  · subst h2; decide
  by_cases h3 : x = '>'
  · subst h3; decide
  by_cases h4 : x = '"'
  · subst h4; decide
  by_cases h5 : x = '\''
  · subst h5; decide
  simp [escapeXmlL, replaceChar, xmlEntity, h1, h2, h3, h4, h5]

theorem escapeXmlL_eq_flatMap (l : List Char) : escapeXmlL l = l.flatMap xmlEntity := by
  induction l with
  | nil => decide
  | cons x t ih =>
    have hx : x :: t = [x] ++ t := rfl
    rw [hx, escapeXmlL_append, ih, escapeXmlL_single]
    simp

/-- C6: `escapeXml` rewrites exactly the five characters `&`, `<`, `>`, `"`, `'`
to their entity forms, once per original occurrence (characters introduced by an
earlier replacement pass are never re-escaped), agreeing with the single-pass
per-character substitution on every input; in particular
`"Hello & World"` maps to `"Hello &amp; World"` and `"<tag>"` to `"&lt;tag&gt;"`,
and a string with no further special characters is left unchanged apart from
those single substitutions. -/
theorem c6_escapeXml_five_entities_once :
    (∀ s : String, escapeXml s = String.mk (s.toList.flatMap xmlEntity))
    ∧ escapeXml "Hello & World" = "Hello &amp; World"
    ∧ escapeXml "<tag>" = "&lt;tag&gt;" := by
  refine ⟨fun s => ?_, by decide, by decide⟩
  rw [escapeXml, escapeXmlL_eq_flatMap]

theorem takeWhile_all (p : Char → Bool) (l : List Char) (h : l.all p = true) :
    l.takeWhile p = l := by
  induction l with
  | nil => rfl
  | cons c t ih =>
    simp only [List.all_cons, Bool.and_eq_true] at h
    simp [List.takeWhile_cons, h.1, ih h.2]

theorem encodeChar_alnum (c : Char) (h : isAlnumAscii c = true) : encodeChar c = [c] := by
  simp [encodeChar, isUriUnreserved, h]

theorem flatMap_encodeChar_alnum (l : List Char) (h : l.all isAlnumAscii = true) :
    l.flatMap encodeChar = l := by
  induction l with
  | nil => rfl
  | cons c t ih =>
    simp only [List.all_cons, Bool.and_eq_true] at h
    simp [encodeChar_alnum c h.1, ih h.2]

theorem encodeURIComponent_track (idChars : List Char) (h : idChars.all isAlnumAscii = true) :
    encodeURIComponent ("spotify:track:" ++ String.mk idChars)
      = "spotify%3Atrack%3A" ++ String.mk idChars := by
  have hd : ("spotify:track:" ++ String.mk idChars).toList
      = "spotify:track:".toList ++ idChars := by
    simp [String.toList, String.data_append]
  rw [encodeURIComponent, hd, List.flatMap_append, flatMap_encodeChar_alnum _ h]
  have hpre : ("spotify:track:".toList).flatMap encodeChar = "spotify%3Atrack%3A".toList := by
    decide
  rw [hpre]
  rfl

theorem matchTrackAt_append (idChars : List Char) (h1 : idChars ≠ [])
    (h2 : idChars.all isAlnumAscii = true) :
    matchTrackAt (trackNeedle ++ idChars) = some idChars := by
  have hp : trackNeedle.isPrefixOf (trackNeedle ++ idChars) = true :=
    List.isPrefixOf_iff_prefix.mpr (List.prefix_append _ _)
  have hd : (trackNeedle ++ idChars).drop trackNeedle.length = idChars :=
    List.drop_left _ _
  simp [matchTrackAt, hp, hd, takeWhile_all _ _ h2, h1]

theorem findTrackMatch_of_match (l r : List Char) (h : matchTrackAt l = some r) :
    findTrackMatch l = some r := by
  cases l with
  | nil =>
    have : matchTrackAt ([] : List Char) = none := by decide
    rw [this] at h
    exact absurd h (by simp)
  | cons c t => simp [findTrackMatch, h]

theorem findTrackMatch_eq_none_iff (l : List Char) :
    findTrackMatch l = none
      ↔ l.tails.any (fun t => (matchTrackAt t).isSome) = false := by
  induction l with
  | nil => decide
  | cons c t ih =>
    rw [List.tails_cons]
    cases hm : matchTrackAt (c :: t) with
    | some r => simp [findTrackMatch, hm]
    | none => simp [findTrackMatch, hm, ih]

/-- C2 counterexample: the input `"!spotify:track:abc"` does not match the
exact pattern `service:track:<id>` (there is a stray leading character), yet
`spotifyToSonosUri` does not fail — the regex search is unanchored, so the
function succeeds and encodes the matched substring. This falsifies the
claim that every input not matching the exact pattern fails with an
InvalidReferenceError. -/
theorem c2_counterexample_unanchored :
    isExactTrackRef "!spotify:track:abc" = false
    ∧ spotifyToSonosUri "!spotify:track:abc"
        = .ok "x-sonos-spotify:spotify%3Atrack%3Aabc?sid=12&flags=8224&sn=7" := by
  constructor
  · decide
  · rfl

/-- C2 amended: `toPlayableUri` (spotifyToSonosUri) returns
`x-sonos-spotify:{percentEncodedReference}?sid=12&flags=8224&sn=7` for every
input that is exactly `spotify:track:<id>` (case-sensitive literal prefix,
non-empty alphanumeric id), and it fails with an InvalidReferenceError exactly
for the inputs in which the pattern `spotify:track:<id>` occurs nowhere as a
substring (an unanchored search, not an exact-shape validation); in
particular `"invalid-uri"` and `"spotify:album:123"` fail. -/
theorem c2_amended_toPlayableUri :
    (∀ idChars : List Char, idChars ≠ [] → idChars.all isAlnumAscii = true →
      spotifyToSonosUri ("spotify:track:" ++ String.mk idChars)
        = .ok ("x-sonos-spotify:" ++ ("spotify%3Atrack%3A" ++ String.mk idChars)
            ++ "?sid=12&flags=8224&sn=7"))
    ∧ spotifyToSonosUri "invalid-uri" = .error "Invalid Spotify URI format: invalid-uri"
    ∧ spotifyToSonosUri "spotify:album:123"
        = .error "Invalid Spotify URI format: spotify:album:123"
    ∧ (∀ s : String, (∃ e, spotifyToSonosUri s = .error e)
        ↔ containsTrackPattern s = false) := by
  refine ⟨fun idChars h1 h2 => ?_, by rfl, by rfl, fun s => ?_⟩
  · have hfind : findTrackMatch ("spotify:track:" ++ String.mk idChars).data
        = some idChars := by
      have hd : ("spotify:track:" ++ String.mk idChars).data = trackNeedle ++ idChars := by
        simp [trackNeedle, String.data_append]
      rw [hd]
      exact findTrackMatch_of_match _ _ (matchTrackAt_append idChars h1 h2)
    simp only [spotifyToSonosUri, String.toList, hfind]
    rw [encodeURIComponent_track idChars h2]
  · rw [containsTrackPattern, ← findTrackMatch_eq_none_iff]
    simp only [spotifyToSonosUri, String.toList]
    cases hm : findTrackMatch s.data with
    | none => simp [hm]
    | some r => simp [hm]

/-- C2 witness: the amended theorem applied at the concrete id `abc`. -/
theorem c2_amended_witness :
    spotifyToSonosUri ("spotify:track:" ++ String.mk "abc".toList)
      = .ok ("x-sonos-spotify:" ++ ("spotify%3Atrack%3A" ++ String.mk "abc".toList)
          ++ "?sid=12&flags=8224&sn=7") :=
  c2_amended_toPlayableUri.1 "abc".toList (by decide) (by decide)

theorem rankLE_trans : ∀ (a b c : RankedTrack), rankLE a b → rankLE b c → rankLE a c := by
  intro a b c hab hbc
  simp only [rankLE, decide_eq_true_eq] at *
  exact le_trans hbc hab

theorem rankLE_total : ∀ (a b : RankedTrack), rankLE a b || rankLE b a := by
  intro a b
  simp only [rankLE, Bool.or_eq_true, decide_eq_true_eq]
  exact le_total b.relevanceScore a.relevanceScore

theorem rank_map_track_perm (ts : List Track) (q a tr : Option String) :
    ((rankSearchResults ts q a tr).map RankedTrack.track).Perm ts := by
  have h := (List.mergeSort_perm
    (ts.map fun t => (⟨t, scoreOf t q a tr⟩ : RankedTrack)) rankLE).map RankedTrack.track
  rw [rankSearchResults]
  refine h.trans ?_
  rw [List.map_map]
  have hcomp : (RankedTrack.track ∘ fun t => (⟨t, scoreOf t q a tr⟩ : RankedTrack)) = id := rfl
  rw [hcomp, List.map_id]

theorem rank_mem (ts : List Track) (q a tr : Option String) (r : RankedTrack)
    (h : r ∈ rankSearchResults ts q a tr) :
    r.track ∈ ts ∧ r.relevanceScore = scoreOf r.track q a tr := by
  rw [rankSearchResults, List.mem_mergeSort] at h
  obtain ⟨t, ht, rfl⟩ := List.mem_map.mp h
  exact ⟨ht, rfl⟩

/-- C3: `rankSearchResults` returns a permutation of the (score-annotated)
input candidates, ordered descending by total relevance score; candidates with
equal scores keep their input relative order (the filter on any fixed score
value is unchanged by the sort, which is the stability property); and the
function is deterministic. -/
theorem c3_rank_permutation_sorted_stable (ts : List Track) (q a tr : Option String) :
    ((rankSearchResults ts q a tr).map RankedTrack.track).Perm ts
    ∧ (rankSearchResults ts q a tr).Pairwise
        (fun x y => y.relevanceScore ≤ x.relevanceScore)
    ∧ (∀ s : ℚ, (rankSearchResults ts q a tr).filter
          (fun x => decide (x.relevanceScore = s))
        = (ts.map (fun t => ⟨t, scoreOf t q a tr⟩)).filter
            (fun x => decide (x.relevanceScore = s)))
    ∧ rankSearchResults ts q a tr = rankSearchResults ts q a tr := by
  refine ⟨rank_map_track_perm ts q a tr, ?_, fun s => ?_, rfl⟩
  · have hs := List.sorted_mergeSort rankLE_trans rankLE_total
      (ts.map fun t => (⟨t, scoreOf t q a tr⟩ : RankedTrack))
    exact hs.imp (fun h => by simpa [rankLE] using h)
  · set scored := ts.map (fun t => (⟨t, scoreOf t q a tr⟩ : RankedTrack)) with hscored
    set p := fun x : RankedTrack => decide (x.relevanceScore = s) with hp
    have hmemp : ∀ x ∈ scored.filter p, p x = true := fun x hx => List.of_mem_filter hx
    have hcp : (scored.filter p).Pairwise (fun x y => rankLE x y = true) := by
      apply List.pairwise_of_forall_mem_list
      intro x hx y hy
      have hxs : x.relevanceScore = s := by
        have := hmemp x hx
        simpa [hp] using this
      have hys : y.relevanceScore = s := by
        have := hmemp y hy
        simpa [hp] using this
      simp [rankLE, hxs, hys]
    have hsub : List.Sublist (scored.filter p) (scored.mergeSort rankLE) :=
      List.sublist_mergeSort rankLE_trans rankLE_total hcp (List.filter_sublist _)
    have hfc : (scored.filter p).filter p = scored.filter p :=
      List.filter_eq_self.mpr hmemp
    have hsub2 : List.Sublist (scored.filter p) ((scored.mergeSort rankLE).filter p) := by
      rw [← hfc]
      exact hsub.filter p
    have hlen : ((scored.mergeSort rankLE).filter p).length = (scored.filter p).length :=
      ((List.mergeSort_perm scored rankLE).filter p).length_eq
    exact (hsub2.eq_of_length hlen.symm).symm

/-- C9: the ranker does not mutate its input — every returned record is a
fresh copy of an input candidate together with the attached `relevanceScore`
field (in this value-level embedding the spread `{ ...t, relevanceScore }` is
a fresh record, and the input list is a pure value, unchanged by the call);
the candidates recovered from the output are exactly a permutation of the
input list. -/
theorem c9_rank_returns_fresh_copies (ts : List Track) (q a tr : Option String) :
    ((rankSearchResults ts q a tr).map RankedTrack.track).Perm ts
    ∧ ∀ r, r ∈ rankSearchResults ts q a tr →
        r.track ∈ ts ∧ r.relevanceScore = scoreOf r.track q a tr :=
  ⟨rank_map_track_perm ts q a tr, fun r hr => rank_mem ts q a tr r hr⟩

theorem scoreOf_split (t : Track) (q a tr : Option String) (h : normalizeQS q ≠ "") :
    scoreOf t q a tr
      = scoreOmittingQueryContainsBonus t q a tr
        + (if jsIncludes (normalizeQS q) (jsLower t.name) then 40 else 0) := by
  simp only [scoreOf, scoreOmittingQueryContainsBonus, queryContainsTrackBonus, if_pos h]
  ring

/-- C1 counterexample: for the candidate "Starlight" (by Muse) and the
free-form query `"light"`, the query is a substring of the lower-cased track
name, yet the computed score carries no `+40` bonus — the code tests the
opposite containment (`normalizedQuery.includes(trackName)`), which is false
here, so the score equals the score with the bonus term omitted, and differs
from what the claim requires. -/
theorem c1_counterexample_reversed_direction :
    jsIncludes (jsLower "Starlight") (normalizeQS (some "light")) = true
    ∧ scoreOf museStarlight (some "light") none none
        = scoreOmittingQueryContainsBonus museStarlight (some "light") none none
    ∧ scoreOf museStarlight (some "light") none none
        ≠ scoreOmittingQueryContainsBonus museStarlight (some "light") none none + 40 := by
  have hsplit := scoreOf_split museStarlight (some "light") none none (by decide)
  have hfalse : jsIncludes (normalizeQS (some "light")) (jsLower museStarlight.name) = false := by
    decide
  rw [hfalse] at hsplit
  simp only [if_neg Bool.false_ne_true, add_zero] at hsplit
  refine ⟨by decide, hsplit, ?_⟩
  rw [hsplit]
  intro hcontra
  have h40 : (40 : ℚ) = 0 := by linarith [hcontra]
  norm_num at h40

/-- C1 amended: in `rankSearchResults`, for every candidate and every
free-form query that is non-empty after trimming and lower-casing, a bonus of
exactly `+40` is added to the candidate's score precisely when the lower-cased
track name is itself a substring of the query (the reverse of the direction
stated in the claim), independently of the other bonuses, which are exactly
the terms of the score with this one omitted. -/
theorem c1_amended_track_in_query_bonus (t : Track) (q a tr : Option String)
    (h : normalizeQS q ≠ "") :
    scoreOf t q a tr
      = scoreOmittingQueryContainsBonus t q a tr
        + (if jsIncludes (normalizeQS q) (jsLower t.name) then 40 else 0) :=
  scoreOf_split t q a tr h

/-- C1 witness: the amended bonus equation at the concrete candidate
"Starlight" and query `"starlight muse"` (which does contain the track name,
so the `+40` branch is the live one). -/
theorem c1_amended_witness :
    scoreOf museStarlight (some "starlight muse") none none
      = scoreOmittingQueryContainsBonus museStarlight (some "starlight muse") none none
        + (if jsIncludes (normalizeQS (some "starlight muse"))
              (jsLower museStarlight.name) then 40 else 0) :=
  c1_amended_track_in_query_bonus museStarlight (some "starlight muse") none none (by decide)

theorem listContainsSub_iff (pat : List Char) :
    ∀ hay : List Char, listContainsSub hay pat = true ↔ pat.IsInfix hay := by
  intro hay
  induction hay with
  | nil => simp [listContainsSub, List.isEmpty_iff]
  | cons c t ih =>
    rw [List.infix_cons_iff]
    simp [listContainsSub, ih, List.isPrefixOf_iff_prefix]

theorem jsIncludes_iff (s pat : String) :
    jsIncludes s pat = true ↔ pat.toList.IsInfix s.toList := by
  rw [jsIncludes, listContainsSub_iff]

/-- C7: `buildDisplayDocument` (`buildSpotifyMetadata`) applied to the empty
metadata `{}` returns a well-formed XML document whose root element is
`DIDL-Lite` and which contains the literal placeholders "Unknown Track",
"Unknown Artist" and "Unknown Album"; moreover, for every metadata object the
document is the one built from the fields with each absent field replaced by
its placeholder — i.e. each field defaults to its placeholder exactly when
absent. -/
theorem c7_empty_metadata_placeholders :
    (jsIncludes (buildSpotifyMetadata emptyTrackInfo) "Unknown Track" = true
    ∧ jsIncludes (buildSpotifyMetadata emptyTrackInfo) "Unknown Artist" = true
    ∧ jsIncludes (buildSpotifyMetadata emptyTrackInfo) "Unknown Album" = true
    ∧ xmlWellFormed (buildSpotifyMetadata emptyTrackInfo) = true
    ∧ hasRootDIDL (buildSpotifyMetadata emptyTrackInfo) = true)
    ∧ ∀ info : TrackInfo, buildSpotifyMetadata info
        = buildSpotifyMetadata ⟨some (info.title.getD "Unknown Track"),
            some (info.artist.getD "Unknown Artist"),
            some (info.album.getD "Unknown Album"),
            info.albumArtUri, info.trackId⟩ := by
  refine ⟨⟨by decide, by decide, by decide, by decide, by decide⟩, fun info => ?_⟩
  simp [buildSpotifyMetadata]

/-- C10: in the radio phase of `playSpotifyTrackWithRadio`, when the supplied
metadata has no title, the interpolated radio title is the literal string
`"undefined Radio"` (JavaScript stringifies `undefined`), not
`"Unknown Track Radio"`; the display document built for the radio phase
contains `<dc:title>undefined Radio</dc:title>`, the `buildSpotifyMetadata`
placeholder default being bypassed because the interpolated title is always a
present string. -/
theorem c10_radio_title_undefined (uri : String) (info : TrackInfo)
    (h : info.title = none) :
    radioTitle info = "undefined Radio"
    ∧ radioTitle info ≠ "Unknown Track Radio"
    ∧ jsIncludes (radioMetadata uri info) "<dc:title>undefined Radio</dc:title>" = true := by
  have htitle : radioTitle info = "undefined Radio" := by
    rw [radioTitle, jsInterpOpt, h]
    decide
  refine ⟨htitle, by rw [htitle]; decide, ?_⟩
  rw [jsIncludes_iff]
  have hesc : escapeXml (radioTitle info) = "undefined Radio" := by rw [htitle]; decide
  rw [radioMetadata, buildSpotifyMetadata]
  simp only [radioTrackInfo, Option.getD_some, hesc]
  have hpat : "<dc:title>undefined Radio</dc:title>".toList
      = "<dc:title>".toList ++ "undefined Radio".toList ++ "</dc:title>".toList := by
    decide
  rw [hpat]
  refine ⟨(didlPre ((uriTrackId uri).getD "")).toList,
    (didlPost (info.artist.getD "Unknown Artist") (info.album.getD "Unknown Album")
      (info.albumArtUri.getD "")
      (if (uriTrackId uri).getD "" ≠ "" then
        "x-sonos-spotify:spotify%3atrack%3a" ++ (uriTrackId uri).getD ""
          ++ "?sid=12&flags=8224&sn=7"
      else "")).toList, ?_⟩
  simp [String.data_append, List.append_assoc]

/-- C10 witness: the theorem applied at a concrete URI and title-less
metadata. -/
theorem c10_witness :
    radioTitle emptyTrackInfo = "undefined Radio"
    ∧ radioTitle emptyTrackInfo ≠ "Unknown Track Radio"
    ∧ jsIncludes (radioMetadata "spotify:track:abc" emptyTrackInfo)
        "<dc:title>undefined Radio</dc:title>" = true :=
  c10_radio_title_undefined "spotify:track:abc" emptyTrackInfo rfl

theorem playTrack_spec (env : Env) (uri : String) (info : TrackInfo) (vol : Option Int) :
    (playSpotifyTrack env uri info vol).1
      = specResult (firstError (playTrackSteps env uri vol)) := by
  cases vol <;>
    cases hv : env.setVolumeR <;>
    cases hc : spotifyToSonosUri uri <;>
    cases h1 : env.setAVTrackR <;>
    cases h2 : env.play1R <;>
    simp [playSpotifyTrack, setAVTransportURIStep, playTrackSteps, specResult,
      firstError, hv, hc, h1, h2, Except.map]

theorem radio_spec (env : Env) (uri : String) (info : TrackInfo) (vol : Option Int) :
    (playSpotifyTrackWithRadio env uri info vol).1
      = specResult (firstError (radioSteps env uri vol)) := by
  cases vol <;>
    cases hv : env.setVolumeR <;>
    cases hc : spotifyToSonosUri uri <;>
    cases h1 : env.setAVTrackR <;>
    cases h2 : env.play1R <;>
    cases hr : spotifyToSonosRadioUri uri <;>
    cases h3 : env.setAVRadioR <;>
    cases h4 : env.play2R <;>
    simp [playSpotifyTrackWithRadio, setAVTransportURIStep, radioSteps, playTrackSteps,
      specResult, firstError, hv, hc, h1, h2, hr, h3, h4, Except.map]

theorem searchAndPlay_spec (env : Env) (q a tr : Option String) (radio : Bool) :
    (searchAndPlay env q a tr radio).1 = specSearchAndPlay env q a tr radio := by
  rw [searchAndPlay, specSearchAndPlay]
  cases hs : searchSpotify env q a tr with
  | error e => rfl
  | ok sr =>
    cases hb : sr.bestMatch with
    | none => simp [hb]
    | some best =>
      cases ha : best.track.artists with
      | nil => simp [hb, ha]
      | cons p rest =>
        cases radio with
        | true =>
          have h := radio_spec env best.track.uri
            ⟨some best.track.name, some p.name, best.track.album.map SpotifyAlbum.name,
             best.track.album.bind (fun al => al.images.head?), none⟩ none
          cases hf : firstError (radioSteps env best.track.uri none) <;>
            simp [hb, ha, h, hf, specResult]
        | false =>
          have h := playTrack_spec env best.track.uri
            ⟨some (if best.track.name = "" then "Unknown Track" else best.track.name),
             some (if p.name = "" then "Unknown Artist" else p.name),
             some (jsOr (best.track.album.map SpotifyAlbum.name) "Unknown Album"),
             some (jsOr (best.track.album.bind (fun al => al.images.head?)) ""),
             none⟩ (some 30)
          cases hf : firstError (playTrackSteps env best.track.uri (some 30)) <;>
            simp [hb, ha, playSpotifyTrackOnSonos, h, hf, specResult]

/-- C4: the orchestration-level operations never reject (in this embedding
they are total functions into structured results); for every environment of
dependency outcomes, `playSpotifyTrack` and `playSpotifyTrackWithRadio`
resolve to `{success: false, error: message of the first failing step}` when
some dependency step fails and to `{success: true}` when all succeed, and
`searchAndPlay` resolves to the corresponding structured result (search error
echoed with the query, not-found outcome, or the play phase's first-failure
result passed through). -/
theorem c4_orchestration_structured_errors (env : Env) (uri : String)
    (info : TrackInfo) (vol : Option Int) (q a tr : Option String) (radio : Bool) :
    (playSpotifyTrack env uri info vol).1
        = specResult (firstError (playTrackSteps env uri vol))
    ∧ (playSpotifyTrackWithRadio env uri info vol).1
        = specResult (firstError (radioSteps env uri vol))
    ∧ (searchAndPlay env q a tr radio).1 = specSearchAndPlay env q a tr radio :=
  ⟨playTrack_spec env uri info vol, radio_spec env uri info vol,
   searchAndPlay_spec env q a tr radio⟩

/-- C5: whenever the search collaborator yields zero candidates,
`searchAndPlay` returns the structured result
`{success: false, error: "No matching tracks found", query: {...}}` and
issues no speaker (SOAP) call at all: the returned trace is empty. -/
theorem c5_zero_candidates_no_speaker_call (env : Env) (q a tr : Option String)
    (radio : Bool) (h : env.searchR = .ok []) :
    searchAndPlay env q a tr radio
      = (⟨false, some "No matching tracks found", some ⟨q, a, tr⟩⟩, []) := by
  have hs : searchSpotify env q a tr = .ok ⟨[], none⟩ := by
    by_cases hq : jsTrim (buildSearchQuery q a tr) = ""
    · simp [searchSpotify, hq]
    · simp [searchSpotify, hq, h]
  rw [searchAndPlay, hs]

/-- C5 witness: a concrete all-success environment whose search returns no
candidates. -/
theorem c5_witness :
    searchAndPlay envNoMatch (some "muse starlight") none none true
      = (⟨false, some "No matching tracks found",
          some ⟨some "muse starlight", none, none⟩⟩, []) :=
  c5_zero_candidates_no_speaker_call envNoMatch (some "muse starlight") none none true rfl

theorem playTrack_trace_head (env : Env) (uri : String) (info : TrackInfo) :
    ∃ rest, (playSpotifyTrack env uri info (some 30)).2
      = SpeakerCall.setVolume 30 :: rest := by
  cases hv : env.setVolumeR <;>
    cases hc : spotifyToSonosUri uri <;>
    cases h1 : env.setAVTrackR <;>
    cases h2 : env.play1R <;>
    simp [playSpotifyTrack, setAVTransportURIStep, hv, hc, h1, h2]

theorem radio_trace_no_volume (env : Env) (uri : String) (info : TrackInfo) :
    ((playSpotifyTrackWithRadio env uri info none).2.all
      fun c => !isSetVolumeCall c) = true := by
  cases hc : spotifyToSonosUri uri <;>
    cases h1 : env.setAVTrackR <;>
    cases h2 : env.play1R <;>
    cases hr : spotifyToSonosRadioUri uri <;>
    cases h3 : env.setAVRadioR <;>
    cases h4 : env.play2R <;>
    simp [playSpotifyTrackWithRadio, setAVTransportURIStep, isSetVolumeCall,
      hc, h1, h2, hr, h3, h4]

theorem searchAndPlay_false_trace (env : Env) (q a tr : Option String) :
    (searchAndPlay env q a tr false).2 = []
    ∨ ∃ rest, (searchAndPlay env q a tr false).2
        = SpeakerCall.setVolume 30 :: rest := by
  rw [searchAndPlay]
  cases hs : searchSpotify env q a tr with
  | error e => left; rfl
  | ok sr =>
    cases hb : sr.bestMatch with
    | none => left; simp [hb]
    | some best =>
      cases ha : best.track.artists with
      | nil => left; simp [hb, ha]
      | cons p rest =>
        right
        obtain ⟨r, hr⟩ := playTrack_trace_head env best.track.uri
          ⟨some (if best.track.name = "" then "Unknown Track" else best.track.name),
           some (if p.name = "" then "Unknown Artist" else p.name),
           some (jsOr (best.track.album.map SpotifyAlbum.name) "Unknown Album"),
           some (jsOr (best.track.album.bind (fun al => al.images.head?)) ""),
           none⟩
        exact ⟨r, by simp [hb, ha, playSpotifyTrackOnSonos, hr]⟩

theorem searchAndPlay_true_no_volume (env : Env) (q a tr : Option String) :
    ((searchAndPlay env q a tr true).2.all fun c => !isSetVolumeCall c) = true := by
  rw [searchAndPlay]
  cases hs : searchSpotify env q a tr with
  | error e => rfl
  | ok sr =>
    cases hb : sr.bestMatch with
    | none => simp [hb]
    | some best =>
      cases ha : best.track.artists with
      | nil => simp [hb, ha]
      | cons p rest => simp [hb, ha, radio_trace_no_volume]

/-- C8: the caller cannot choose the playback volume in `searchAndPlay` —
with the radio flag `true` (the default) the issued speaker-call trace never
contains a `SetVolume` command (`playSpotifyTrackWithRadio` is invoked without
a volume argument, which defaults to null and skips the volume step), and with
the radio flag `false` any `SetAVTransportURI` (track-load) call in the trace
is preceded by a `SetVolume 30` command with the hard-coded value 30. -/
theorem c8_volume_never_caller_chosen (env : Env) (q a tr : Option String) :
    ((searchAndPlay env q a tr true).2.all fun c => !isSetVolumeCall c) = true
    ∧ ∀ pre c post, (searchAndPlay env q a tr false).2 = pre ++ c :: post →
        isSetAVCall c = true → SpeakerCall.setVolume 30 ∈ pre := by
  refine ⟨searchAndPlay_true_no_volume env q a tr, fun pre c post heq hav => ?_⟩
  rcases searchAndPlay_false_trace env q a tr with hnil | ⟨rest, hcons⟩
  · rw [hnil] at heq
    exact absurd heq.symm (by simp)
  · rw [hcons] at heq
    cases pre with
    | nil =>
      rw [List.nil_append] at heq
      injection heq with h1 h2
      rw [← h1] at hav
      simp [isSetAVCall] at hav
    | cons x pre' =>
      rw [List.cons_append] at heq
      injection heq with h1 h2
      rw [← h1]
      exact List.mem_cons_self _ _

theorem searchSpotify_envOneTrack :
    searchSpotify envOneTrack (some "muse") none none
      = .ok ⟨[⟨museStarlight, scoreOf museStarlight (some "muse") none none⟩],
          some ⟨museStarlight, scoreOf museStarlight (some "muse") none none⟩⟩ := by
  rw [searchSpotify]
  have hq : ¬ (jsTrim (buildSearchQuery (some "muse") none none) = "") := by decide
  rw [if_neg hq]
  simp [envOneTrack, rankSearchResults, museStarlight]

theorem searchAndPlay_envOneTrack_trace :
    (searchAndPlay envOneTrack (some "muse") none none false).2
      = [SpeakerCall.setVolume 30]
        ++ SpeakerCall.setAV
            "x-sonos-spotify:spotify%3Atrack%3Astarlightid?sid=12&flags=8224&sn=7"
            (buildSpotifyMetadata ⟨some "Starlight", some "Muse", some "Unknown Album",
              some "", some "starlightid"⟩)
          :: [SpeakerCall.play] := by
  rw [searchAndPlay, searchSpotify_envOneTrack]
  have hconv : spotifyToSonosUri "spotify:track:starlightid"
      = .ok "x-sonos-spotify:spotify%3Atrack%3Astarlightid?sid=12&flags=8224&sn=7" := by rfl
  have hid : uriTrackId "spotify:track:starlightid" = some "starlightid" := by decide
  simp [museStarlight, playSpotifyTrackOnSonos, playSpotifyTrack, setAVTransportURIStep,
    hconv, hid, envOneTrack, jsOr]

/-- C8 witness: the volume-before-load conjunct applied at a concrete
environment whose search yields one candidate, with the concrete decomposition
of the resulting trace around its track-load call. -/
theorem c8_witness : SpeakerCall.setVolume 30 ∈ [SpeakerCall.setVolume 30] :=
  (c8_volume_never_caller_chosen envOneTrack (some "muse") none none).2
    [SpeakerCall.setVolume 30] _ [SpeakerCall.play]
    searchAndPlay_envOneTrack_trace rfl

/-- C9 witness: the fresh-copy property applied to the record produced for a
concrete one-candidate input. -/
theorem c9_witness :
    (⟨museStarlight, scoreOf museStarlight (some "light") none none⟩
        : RankedTrack).track ∈ [museStarlight]
    ∧ (⟨museStarlight, scoreOf museStarlight (some "light") none none⟩
        : RankedTrack).relevanceScore
      = scoreOf museStarlight (some "light") none none := by
  have hrank : rankSearchResults [museStarlight] (some "light") none none
      = [⟨museStarlight, scoreOf museStarlight (some "light") none none⟩] := by
    simp [rankSearchResults]
  exact (c9_rank_returns_fresh_copies [museStarlight] (some "light") none none).2
    _ (by rw [hrank]; exact List.mem_singleton_self _)
